import Mathlib

/-!
Shallow embedding of the package-metadata resolution pipeline of
`src/services/npmService.ts` (functions `fetchPackageDownloads` and
`fetchPackageData`), together with the data model of `src/types.ts`.

JavaScript platform behaviour that the source relies on is modelled
explicitly:
* truthiness of optional strings (`strTruthy`, `jsOrStr`, `jsOrOptStr`);
* `String.prototype.split('.')` (`splitDots`);
* `Number(...)` on version segments (`jsNumber`), modelled on the
  whitespace-trimmed signed decimal-integer fragment; inputs outside that
  fragment are modelled as `none` (NaN), which the source collapses to `0`
  via `|| 0`;
* `String.prototype.trim` (`jsTrim`), modelled on ASCII whitespace;
* the two regular expressions of the author-extraction logic
  (`nameBeforeLt` for `/^([^<]+)/`, `githubOwner` for
  `/github\.com\/([^/]+)\/[^/]+/`) and the URL clean-up
  (`cleanRepoUrl` for `.replace(/^git\+/, '').replace(/\.git$/, '')`);
* `Array.prototype.sort`, which is a stable sort, modelled by
  `List.insertionSort` (stable) with the source's comparator;
* HTTP fetch outcomes (`FetchResult`): a response carries a status, a
  status text and an optional parsed JSON body (`none` models a body on
  which `response.json()` throws); `rejected` models a rejection of the
  `fetch` call itself.

Locale date rendering (`toLocaleDateString('en-GB', ...)`) is platform
behaviour no claim depends on; it is kept abstract as the identity
function `formatDateGB` on the timestamp string.
-/

/-- JS whitespace test, restricted to the ASCII whitespace characters. -/
def isJsSpace (c : Char) : Bool := c = ' ' || c = '\t' || c = '\n' || c = '\r'

/-- Trim JS whitespace from both ends of a character list. -/
def jsTrimChars (cs : List Char) : List Char :=
  ((cs.dropWhile isJsSpace).reverse.dropWhile isJsSpace).reverse

/-- Model of `String.prototype.trim` (ASCII-whitespace fragment). -/
def jsTrim (s : String) : String := String.mk (jsTrimChars s.toList)

/-- Accumulate the value of a decimal digit string; `none` if a non-digit occurs. -/
def digitsVal : List Char → Nat → Option Nat
  | [], acc => some acc
  | c :: cs, acc =>
    if c.isDigit then digitsVal cs (acc * 10 + (c.toNat - '0'.toNat)) else none

/-- Model of the JS `Number` conversion on the whitespace-trimmed signed
decimal-integer fragment: `""` and whitespace-only strings give `0`, an
optionally signed digit string gives its value, and every other string is
modelled as `none` (NaN). -/
def jsNumber (s : String) : Option Int :=
  match jsTrimChars s.toList with
  | [] => some 0
  | '+' :: rest =>
    match rest with
    | [] => none
    | _ => (digitsVal rest 0).map Int.ofNat
  | '-' :: rest =>
    match rest with
    | [] => none
    | _ => (digitsVal rest 0).map (fun n => -(n : Int))
  | cs => (digitsVal cs 0).map Int.ofNat

/-- Helper for `splitDots`: accumulate the current segment (reversed). -/
def splitDotsAux : List Char → List Char → List String
  | [], acc => [String.mk acc.reverse]
  | c :: cs, acc =>
    if c = '.' then String.mk acc.reverse :: splitDotsAux cs []
    else splitDotsAux cs (c :: acc)

/-- Model of `String.prototype.split('.')`. -/
def splitDots (s : String) : List String := splitDotsAux s.toList []

/-- `a.split('.').map(Number)` of the source's version comparator. -/
def partsOf (s : String) : List (Option Int) := (splitDots s).map jsNumber

/-- `parts[i] || 0` at the head of the remaining segment list: a missing
position (`[]`) and a NaN segment (`none`) both give `0`. -/
def hdVal : List (Option Int) → Int
  | [] => 0
  | x :: _ => x.getD 0

/-- The comparator loop once the `a`-side positions are exhausted (every
`aNum` is `0` from here on): the result is the first nonzero `bNum`, or `0`. -/
def cmpTail : List (Option Int) → Int
  | [] => 0
  | b :: bs => if b.getD 0 ≠ 0 then b.getD 0 else cmpTail bs

/-- The comparator loop of the source's version sort: at the first position
where the (0-padded) numeric segments differ it returns `bNum - aNum`
(descending), and `0` if all positions agree. -/
def cmpNums : List (Option Int) → List (Option Int) → Int
  | [], bs => cmpTail bs
  | a :: as, [] =>
    if a.getD 0 ≠ (0 : Int) then 0 - a.getD 0 else cmpNums as []
  | a :: as, b :: bs =>
    if a.getD 0 ≠ b.getD 0 then b.getD 0 - a.getD 0 else cmpNums as bs

/-- The comparator of the source's version sort as a relation:
`rV a b` holds when the comparator places `a` no later than `b`. -/
def rV (a b : String) : Prop := cmpNums (partsOf a) (partsOf b) ≤ 0

instance : DecidableRel rV := fun _ _ => Int.decLe _ _

/-- Tie under the version comparator, as a Boolean predicate. -/
def tieB (a b : String) : Bool := cmpNums (partsOf a) (partsOf b) == 0

/-- `Object.keys(data.versions).sort(comparator)`: JS `sort` is stable, and a
stable sort under a total preorder is unique, so it is modelled by the
(stable) insertion sort with the source's comparator. -/
def sortVersions (ks : List String) : List String := List.insertionSort rV ks

/-- JS truthiness of an optional string: `undefined` and `""` are falsy. -/
def strTruthy : Option String → Bool
  | none => false
  | some s => s != ""

/-- JS `a || b` where `a` is an optional string and `b` a string. -/
def jsOrStr (a : Option String) (b : String) : String :=
  match a with
  | some s => if s = "" then b else s
  | none => b

/-- JS `a || b` where both operands are optional strings. -/
def jsOrOptStr (a b : Option String) : Option String :=
  if strTruthy a then a else b

/-- Model of `s.match(/^([^<]+)/)`: the match succeeds exactly when `s` is
nonempty and does not start with `'<'`, and the first capture group is then
the maximal prefix of characters other than `'<'`. -/
def nameBeforeLt (s : String) : Option String :=
  match s.toList with
  | [] => none
  | c :: _ =>
    if c = '<' then none
    else some (String.mk (s.toList.takeWhile (fun x => x != '<')))

/-- Drop `p` as a prefix of `cs`, or fail. -/
def dropPrefixList : List Char → List Char → Option (List Char)
  | [], cs => some cs
  | _ :: _, [] => none
  | p :: ps, c :: cs => if c = p then dropPrefixList ps cs else none

/-- Model of `.replace(/^git\+/, '').replace(/\.git$/, '')`: drop one leading
`"git+"` and then one trailing `".git"`, when present. -/
def cleanRepoUrl (u : String) : String :=
  let cs := u.toList
  let cs1 :=
    match dropPrefixList "git+".toList cs with
    | some rest => rest
    | none => cs
  let cs2 :=
    match dropPrefixList ".git".toList.reverse cs1.reverse with
    | some rest => rest.reverse
    | none => cs1
  String.mk cs2

/-- Attempt of `/github\.com\/([^/]+)\/[^/]+/` at the start of `cs`: after
the literal `"github.com/"` the capture is the maximal nonempty run of
characters other than `'/'`, which must be followed by `'/'` and at least
one further character other than `'/'`. -/
def matchGithubAt (cs : List Char) : Option String :=
  match dropPrefixList "github.com/".toList cs with
  | none => none
  | some rest =>
    match rest.takeWhile (fun c => c != '/'), rest.dropWhile (fun c => c != '/') with
    | [], _ => none
    | o :: os, '/' :: d :: _ =>
      if d != '/' then some (String.mk (o :: os)) else none
    | _ :: _, _ => none

/-- Left-to-right scan of the regex attempt, as the JS regex engine does. -/
def githubSearch : List Char → Option String
  | [] => none
  | c :: cs =>
    match matchGithubAt (c :: cs) with
    | some o => some o
    | none => githubSearch cs

/-- Model of `cleanedRepoUrl.match(/github\.com\/([^/]+)\/[^/]+/)`, returning
the first capture group of the first match. -/
def githubOwner (s : String) : Option String := githubSearch s.toList

/-- Per-version `author` field of `src/types.ts`: a free-text string or an
object with a (required) `name` and optional `email`/`url`. -/
inductive AuthorField where
  | str (s : String)
  | obj (name : String) (email : Option String) (url : Option String)
deriving DecidableEq, Repr

/-- `repository` field: `{ type, url }`. -/
structure RepoInfo where
  type : String
  url : String
deriving DecidableEq, Repr

/-- Entry of the `maintainers` arrays. -/
structure Maintainer where
  name : String
  email : String
deriving DecidableEq, Repr

/-- Per-version record of `NpmRegistryResponse.versions` in `src/types.ts`. -/
structure VersionRecord where
  name : String := ""
  version : String := ""
  description : Option String := none
  license : Option String := none
  author : Option AuthorField := none
  dependencies : Option (List (String × String)) := none
  devDependencies : Option (List (String × String)) := none
  homepage : Option String := none
  repository : Option RepoInfo := none
deriving DecidableEq, Repr

/-- `NpmRegistryResponse` of `src/types.ts`. The `versions` and `time` maps
are modelled as association lists in JS enumeration order; the source reads
`data['dist-tags']?.latest` with optional chaining, so the tag is modelled
as an optional string. -/
structure RegistryDocument where
  name : String := ""
  distTagsLatest : Option String := none
  versions : List (String × VersionRecord) := []
  time : List (String × String) := []
  maintainers : List Maintainer := []
  homepage : Option String := none
  repository : Option RepoInfo := none
deriving DecidableEq, Repr

/-- `NpmPackageData` of `src/types.ts`, as built at the end of
`fetchPackageData`. -/
structure NpmPackageData where
  name : String
  version : String
  description : Option String
  license : Option String
  author : String
  dependencies : Option (List (String × String))
  devDependencies : Option (List (String × String))
  homepage : Option String
  repository : Option String
  npmUrl : String
  publishedDate : Option String
  maintainers : List Maintainer
  downloadsLastWeek : Option Nat
deriving DecidableEq, Repr

/-- `PackageDetailsResponse` of `src/types.ts`. -/
structure PackageDetailsResponse where
  packageData : NpmPackageData
  allVersions : List String
deriving DecidableEq, Repr

/-- The errors thrown by `fetchPackageData`, one constructor per throw site,
plus `jsonError` for a body on which `response.json()` throws and
`rejected` for a rejection of the `fetch` call itself. -/
inductive NpmError where
  | notFound (pkg : String)
  | transportError (statusText : String)
  | noLatestTag (pkg : String)
  | versionNotFound (version : String) (pkg : String)
  | jsonError
  | rejected (msg : String)
deriving DecidableEq, Repr

/-- The exact message text of each throw site in the source. -/
def errorMessage : NpmError → String
  | .notFound pkg => "Package \"" ++ pkg ++ "\" not found."
  | .transportError statusText => "Failed to fetch package data: " ++ statusText
  | .noLatestTag pkg =>
      "Could not determine latest version for package \"" ++ pkg ++ "\"."
  | .versionNotFound version pkg =>
      "Could not find data for version \"" ++ version ++ "\" of package \"" ++
        pkg ++ "\"."
  | .jsonError => "Unexpected end of JSON input"
  | .rejected msg => msg

/-- An HTTP response as the source observes it: status, status text, and the
parsed JSON body (`none` when `response.json()` would throw). -/
structure HttpResponse (α : Type) where
  status : Nat
  statusText : String
  body : Option α
deriving DecidableEq, Repr

/-- Outcome of a `fetch` call: a response, or a rejection of the call itself
(network-level failure). -/
inductive FetchResult (α : Type) where
  | response (r : HttpResponse α)
  | rejected (msg : String)
deriving DecidableEq, Repr

instance {e a : Type} [DecidableEq e] [DecidableEq a] : DecidableEq (Except e a) := fun x y =>
  match x, y with
  | .ok u, .ok w =>
    if h : u = w then .isTrue (congrArg Except.ok h)
    else .isFalse (fun hh => h (Except.ok.inj hh))
  | .error u, .error w =>
    if h : u = w then .isTrue (congrArg Except.error h)
    else .isFalse (fun hh => h (Except.error.inj hh))
  | .ok _, .error _ => .isFalse (fun hh => Except.noConfusion hh)
  | .error _, .ok _ => .isFalse (fun hh => Except.noConfusion hh)

/-- `response.ok`: status in the inclusive range 200-299. -/
def respOk (status : Nat) : Bool := 200 ≤ status && status < 300

/-- Locale date rendering is platform behaviour no claim depends on; it is
kept abstract as the identity on the raw timestamp string. -/
def formatDateGB (iso : String) : String := iso

/-- Body of the `try` block of `fetchPackageDownloads`: a non-ok 404 returns
`undefined`, any other non-ok status throws, a malformed body makes
`response.json()` throw, and otherwise the `downloads` field is returned. -/
def fetchDownloadsCore : FetchResult Nat → Except String (Option Nat)
  | .rejected msg => .error msg
  | .response r =>
    if !(respOk r.status) then
      if r.status = 404 then .ok none
      else .error ("Failed to fetch download data: " ++ r.statusText)
    else
      match r.body with
      | none => .error "Unexpected end of JSON input"
      | some n => .ok (some n)

/-- `fetchPackageDownloads` of `src/services/npmService.ts`: its `catch`
turns every error of the `try` body into `undefined`. -/
def fetchPackageDownloads (x : FetchResult Nat) : Option Nat :=
  match fetchDownloadsCore x with
  | .ok v => v
  | .error _ => none

/-- `const versionToFetch = version || latestVersion` (the latest tag read
with a default for the untaken branch). -/
def targetVersion (data : RegistryDocument) (version : Option String) : String :=
  jsOrStr version (data.distTagsLatest.getD "")

/-- `const repoUrl = versionData.repository?.url || data.repository?.url`. -/
def repoUrlOf (data : RegistryDocument) (versionData : VersionRecord) : Option String :=
  jsOrOptStr (versionData.repository.map RepoInfo.url)
    (data.repository.map RepoInfo.url)

/-- Step 1 of the author-extraction logic of `fetchPackageData` (source
lines 65-73): the value of the local `author` after the first `if` block -
the object's `name` if truthy, else for a truthy string the trimmed
`/^([^<]+)/` capture when the match succeeds and the whole string when it
does not. -/
def computeAuthorStep1 : Option AuthorField → Option String
  | none => none
  | some (.obj nm _ _) => if nm != "" then some nm else none
  | some (.str s) =>
    if s = "" then none
    else
      match nameBeforeLt s with
      | some m => some (jsTrim m)
      | none => some s

/-- The full author-extraction logic (source lines 62-84): step 2 replaces a
falsy step-1 result by the GitHub owner of the cleaned repository URL when
the URL is truthy and the owner pattern matches. -/
def computeAuthor (af : Option AuthorField) (repoUrl : Option String) : Option String :=
  if strTruthy (computeAuthorStep1 af) then computeAuthorStep1 af
  else
    match repoUrl with
    | none => computeAuthorStep1 af
    | some u =>
      if u = "" then computeAuthorStep1 af
      else
        match githubOwner (cleanRepoUrl u) with
        | some o => some o
        | none => computeAuthorStep1 af

/-- The document-processing part of `fetchPackageData` (source lines 44-134):
everything after the registry document has been fetched and parsed.
`downloads` is the value already returned by `fetchPackageDownloads`. -/
def normalizeDoc (data : RegistryDocument) (downloads : Option Nat)
    (packageName : String) (version : Option String) :
    Except NpmError PackageDetailsResponse :=
  if strTruthy data.distTagsLatest then
    let versionToFetch := targetVersion data version
    match data.versions.lookup versionToFetch with
    | none => .error (.versionNotFound versionToFetch packageName)
    | some versionData =>
      let repoUrl := repoUrlOf data versionData
      let homepageUrl := jsOrOptStr versionData.homepage data.homepage
      let author := computeAuthor versionData.author repoUrl
      let publishedDate :=
        match data.time.lookup versionToFetch with
        | some raw => if raw = "" then none else some (formatDateGB raw)
        | none => none
      let allVersions := sortVersions (data.versions.map Prod.fst)
      .ok {
        packageData := {
          name := versionData.name
          version := versionData.version
          description := versionData.description
          license := versionData.license
          author := jsOrStr author "N/A"
          dependencies := versionData.dependencies
          devDependencies := versionData.devDependencies
          homepage := homepageUrl
          repository := repoUrl
          npmUrl := "https://www.npmjs.com/package/" ++ packageName
          publishedDate := publishedDate
          maintainers := data.maintainers
          downloadsLastWeek := downloads
        }
        allVersions := allVersions
      }
  else .error (.noLatestTag packageName)

/-- `fetchPackageData` of `src/services/npmService.ts`: the document fetch
outcome and the downloads fetch outcome are the two external inputs. A
non-ok document response throws `notFound` on 404 and `transportError`
otherwise; a rejection of the document fetch propagates out of the
function unchanged. -/
def fetchPackageData (docFetch : FetchResult RegistryDocument)
    (dlFetch : FetchResult Nat) (packageName : String)
    (version : Option String) : Except NpmError PackageDetailsResponse :=
  match docFetch with
  | .rejected msg => .error (.rejected msg)
  | .response r =>
    if !(respOk r.status) then
      if r.status = 404 then .error (.notFound packageName)
      else .error (.transportError r.statusText)
    else
      match r.body with
      | none => .error .jsonError
      | some data =>
        normalizeDoc data (fetchPackageDownloads dlFetch) packageName version

/-- A successful document fetch delivering `doc`. -/
def fetchOkDoc (doc : RegistryDocument) : FetchResult RegistryDocument :=
  .response { status := 200, statusText := "OK", body := some doc }

/-- The `version` field of a successful result. -/
def resultVersion (r : Except NpmError PackageDetailsResponse) : Option String :=
  match r with
  | .ok res => some res.packageData.version
  | .error _ => none

/-- The `author` field of a successful result. -/
def resultAuthor (r : Except NpmError PackageDetailsResponse) : Option String :=
  match r with
  | .ok res => some res.packageData.author
  | .error _ => none

/-- The `allVersions` list of a successful result. -/
def resultVersions (r : Except NpmError PackageDetailsResponse) : Option (List String) :=
  match r with
  | .ok res => some res.allVersions
  | .error _ => none

/-- The `downloadsLastWeek` field of a successful result. -/
def resultDownloads (r : Except NpmError PackageDetailsResponse) : Option (Option Nat) :=
  match r with
  | .ok res => some res.packageData.downloadsLastWeek
  | .error _ => none

/-- Whether the pipeline succeeded. -/
def isOkB (r : Except NpmError PackageDetailsResponse) : Bool :=
  match r with
  | .ok _ => true
  | .error _ => false

/-- A weekly-downloads fetch outcome that does not deliver a downloads
count: a 404 response, any other non-success response, a malformed body,
or a rejection of the fetch itself. -/
def dlFailure : FetchResult Nat → Prop
  | .rejected _ => True
  | .response r => respOk r.status = false ∨ r.body = none

/-- The resolved author the claim about free-text author strings predicts:
the portion of the string preceding the first occurrence of the character
`'<'`, with surrounding whitespace trimmed. (Stated from the claim's
words, for comparison with the source's behaviour.) -/
def claimedAuthorFromString (s : String) : String :=
  jsTrim (String.mk (s.toList.takeWhile (fun c => c != '<')))

/-! ### Properties of the version comparator -/

/-- One unfolding step of the comparator loop, phrased uniformly through
`hdVal`. -/
theorem cmpNums_step : ∀ as bs : List (Option Int),
    cmpNums as bs =
      if hdVal as ≠ hdVal bs then hdVal bs - hdVal as
      else cmpNums as.tail bs.tail := by
  intro as bs
  cases as <;> cases bs <;>
    simp only [cmpNums, cmpTail, hdVal, List.tail_nil, List.tail_cons] <;>
    first
      | rfl
      | (split_ifs <;> omega)

/-- The comparator is antisymmetric: swapping the arguments negates it. -/
theorem cmpNums_neg_aux : ∀ (n : ℕ) (as bs : List (Option Int)),
    as.length + bs.length ≤ n → cmpNums as bs = -cmpNums bs as := by
  intro n
  induction n with
  | zero =>
    intro as bs h
    have ha : as = [] := List.eq_nil_of_length_eq_zero (by omega)
    have hb : bs = [] := List.eq_nil_of_length_eq_zero (by omega)
    subst ha; subst hb
    simp [cmpNums, cmpTail]
  | succ n ih =>
    intro as bs h
    rw [cmpNums_step, cmpNums_step bs as]
    by_cases hc : hdVal as = hdVal bs
    · rw [if_neg (by simp [hc]), if_neg (by simp [hc])]
      apply ih
      have t1 := List.length_tail as
      have t2 := List.length_tail bs
      omega
    · rw [if_pos hc, if_pos (Ne.symm hc)]
      omega

theorem cmpNums_neg (as bs : List (Option Int)) :
    cmpNums as bs = -cmpNums bs as :=
  cmpNums_neg_aux (as.length + bs.length) as bs le_rfl

/-- The comparator is transitive on the non-positive side. -/
theorem cmpNums_le_trans_aux : ∀ (n : ℕ) (as bs cs : List (Option Int)),
    as.length + bs.length + cs.length ≤ n →
    cmpNums as bs ≤ 0 → cmpNums bs cs ≤ 0 → cmpNums as cs ≤ 0 := by
  intro n
  induction n with
  | zero =>
    intro as bs cs h _ _
    have ha : as = [] := List.eq_nil_of_length_eq_zero (by omega)
    have hc : cs = [] := List.eq_nil_of_length_eq_zero (by omega)
    subst ha; subst hc
    simp [cmpNums, cmpTail]
  | succ n ih =>
    intro as bs cs h h1 h2
    rw [cmpNums_step] at h1 h2
    rw [cmpNums_step]
    have t1 := List.length_tail as
    have t2 := List.length_tail bs
    have t3 := List.length_tail cs
    split_ifs at h1 h2 ⊢ with e1 e2 e3 <;>
      first
        | omega
        | exact ih as.tail bs.tail cs.tail (by omega) h1 h2

theorem cmpNums_le_trans (as bs cs : List (Option Int))
    (h1 : cmpNums as bs ≤ 0) (h2 : cmpNums bs cs ≤ 0) : cmpNums as cs ≤ 0 :=
  cmpNums_le_trans_aux (as.length + bs.length + cs.length) as bs cs le_rfl h1 h2

/-- Ties compose: being tied is transitive. -/
theorem cmpNums_zero_trans (as bs cs : List (Option Int))
    (h1 : cmpNums as bs = 0) (h2 : cmpNums bs cs = 0) : cmpNums as cs = 0 := by
  have u1 : cmpNums as cs ≤ 0 :=
    cmpNums_le_trans as bs cs (le_of_eq h1) (le_of_eq h2)
  have n1 := cmpNums_neg bs as
  have n2 := cmpNums_neg cs bs
  have u2 : cmpNums cs as ≤ 0 :=
    cmpNums_le_trans cs bs as (by omega) (by omega)
  have n3 := cmpNums_neg as cs
  omega

instance : IsTotal String rV :=
  ⟨fun a b => by
    have h := cmpNums_neg (partsOf a) (partsOf b)
    simp only [rV]
    omega⟩

instance : IsTrans String rV :=
  ⟨fun _ _ _ hab hbc => cmpNums_le_trans _ _ _ hab hbc⟩

theorem tieB_iff {a b : String} :
    tieB a b = true ↔ cmpNums (partsOf a) (partsOf b) = 0 := by
  simp [tieB]

/-- Inserting `a` in front of its tie class: the tie-class sublist gains `a`
at its front exactly when `a` is tied with `k`, and is unchanged otherwise. -/
theorem filter_tie_orderedInsert (k a : String) (s : List String) :
    (List.orderedInsert rV a s).filter (fun x => tieB x k) =
      if tieB a k then a :: s.filter (fun x => tieB x k)
      else s.filter (fun x => tieB x k) := by
  induction s with
  | nil =>
    by_cases h1 : tieB a k <;> simp [List.orderedInsert, List.filter, h1]
  | cons b s ih =>
    by_cases hr : rV a b
    · rw [List.orderedInsert_of_le rV s hr]
      by_cases h1 : tieB a k <;> by_cases h2 : tieB b k <;>
        simp [List.filter, h1, h2]
    · have hstep : List.orderedInsert rV a (b :: s) =
          b :: List.orderedInsert rV a s := by
        simp [List.orderedInsert, hr]
      rw [hstep]
      by_cases h1 : tieB a k <;> by_cases h2 : tieB b k
      · exfalso
        apply hr
        have u1 := tieB_iff.mp h1
        have u2 := tieB_iff.mp h2
        have n2 := cmpNums_neg (partsOf b) (partsOf k)
        have : cmpNums (partsOf a) (partsOf b) = 0 :=
          cmpNums_zero_trans _ _ _ u1 (by omega)
        exact le_of_eq this
      · simp [List.filter, h1, h2, ih]
      · simp [List.filter, h1, h2, ih]
      · simp [List.filter, h1, h2, ih]

/-- Stability of the modelled sort: each tie class keeps its original
relative order. -/
theorem filter_tie_sortVersions (k : String) (l : List String) :
    (sortVersions l).filter (fun x => tieB x k) =
      l.filter (fun x => tieB x k) := by
  induction l with
  | nil => rfl
  | cons a l ih =>
    have ih' : (List.insertionSort rV l).filter (fun x => tieB x k) =
        l.filter (fun x => tieB x k) := ih
    show (List.orderedInsert rV a (List.insertionSort rV l)).filter _ = _
    rw [filter_tie_orderedInsert]
    by_cases h1 : tieB a k <;> simp [List.filter, h1, ih']

/-! ### Shape lemmas for the pipeline -/

/-- The result record `fetchPackageData` builds once the target version
record has been found (spelled out for reuse in the claim proofs). -/
def normalizedOk (data : RegistryDocument) (downloads : Option Nat)
    (packageName : String) (versionToFetch : String)
    (versionData : VersionRecord) : PackageDetailsResponse :=
  { packageData := {
      name := versionData.name
      version := versionData.version
      description := versionData.description
      license := versionData.license
      author := jsOrStr
        (computeAuthor versionData.author (repoUrlOf data versionData)) "N/A"
      dependencies := versionData.dependencies
      devDependencies := versionData.devDependencies
      homepage := jsOrOptStr versionData.homepage data.homepage
      repository := repoUrlOf data versionData
      npmUrl := "https://www.npmjs.com/package/" ++ packageName
      publishedDate :=
        match data.time.lookup versionToFetch with
        | some raw => if raw = "" then none else some (formatDateGB raw)
        | none => none
      maintainers := data.maintainers
      downloadsLastWeek := downloads }
    allVersions := sortVersions (data.versions.map Prod.fst) }

theorem normalizeDoc_eq_ok (data : RegistryDocument) (dl : Option Nat)
    (name : String) (v : Option String) (rec : VersionRecord)
    (hl : strTruthy data.distTagsLatest = true)
    (hrec : data.versions.lookup (targetVersion data v) = some rec) :
    normalizeDoc data dl name v =
      .ok (normalizedOk data dl name (targetVersion data v) rec) := by
  unfold normalizeDoc normalizedOk
  simp only [hl, if_true, hrec]

theorem normalizeDoc_noLatest (data : RegistryDocument) (dl : Option Nat)
    (name : String) (v : Option String)
    (hl : strTruthy data.distTagsLatest = false) :
    normalizeDoc data dl name v = .error (.noLatestTag name) := by
  unfold normalizeDoc
  simp [hl]

theorem normalizeDoc_versionNotFound (data : RegistryDocument)
    (dl : Option Nat) (name : String) (v : Option String)
    (hl : strTruthy data.distTagsLatest = true)
    (hrec : data.versions.lookup (targetVersion data v) = none) :
    normalizeDoc data dl name v =
      .error (.versionNotFound (targetVersion data v) name) := by
  unfold normalizeDoc
  simp only [hl, if_true, hrec]

/-- A nonempty character list never spells the empty string. -/
theorem stringMk_ne_empty (c : Char) (cs : List Char) :
    String.mk (c :: cs) ≠ "" :=
  fun h => List.noConfusion (congrArg String.data h)

theorem matchGithubAt_ne_empty {cs : List Char} {w : String}
    (h : matchGithubAt cs = some w) : w ≠ "" := by
  unfold matchGithubAt at h
  split at h
  · simp at h
  · split at h
    · simp at h
    · split at h
      · injection h with h2
        subst h2
        exact stringMk_ne_empty _ _
      · simp at h
    · simp at h

theorem githubSearch_ne_empty :
    ∀ (cs : List Char) (w : String), githubSearch cs = some w → w ≠ "" := by
  intro cs
  induction cs with
  | nil => intro w h; simp [githubSearch] at h
  | cons c cs ih =>
    intro w h
    unfold githubSearch at h
    split at h
    · rename_i o hm
      obtain rfl : o = w := by simpa using h
      exact matchGithubAt_ne_empty hm
    · exact ih w h

theorem githubOwner_ne_empty {s : String} {w : String}
    (h : githubOwner s = some w) : w ≠ "" :=
  githubSearch_ne_empty _ _ h

theorem cleanRepoUrl_empty : cleanRepoUrl "" = "" := rfl

/-! ### Author-chain and downloads lemmas -/

theorem toList_nil_eq_empty {s : String} (h : s.toList = []) : s = "" := by
  cases s with
  | mk data =>
    simp [String.toList] at h
    subst h
    rfl

/-- `author || 'N/A'` is never the empty string. -/
theorem jsOrStr_NA_ne_empty (a : Option String) : jsOrStr a "N/A" ≠ "" := by
  cases a with
  | none => simp [jsOrStr]
  | some s =>
    by_cases h : s = "" <;> simp [jsOrStr, h]

/-- `a || b` returns `b` when `a` is falsy. -/
theorem jsOrStr_falsy {a : Option String} (b : String)
    (h : strTruthy a = false) : jsOrStr a b = b := by
  cases a with
  | none => rfl
  | some s =>
    simp [strTruthy] at h
    simp [jsOrStr, h]

/-- `a || b` returns the value of `a` when `a` is truthy. -/
theorem jsOrStr_truthy {s : String} (b : String) (h : s ≠ "") :
    jsOrStr (some s) b = s := by
  simp [jsOrStr, h]

/-- Step (1b) of the author chain on a usable free-text string: the source
keeps the trimmed `/^([^<]+)/` capture, which is the claim's
"text before the first `'<'`, trimmed". -/
theorem computeAuthor_str (s : String) (r : Option String)
    (hne : s ≠ "") (hlt : s.toList.head? ≠ some '<')
    (htrim : claimedAuthorFromString s ≠ "") :
    computeAuthor (some (.str s)) r = some (claimedAuthorFromString s) := by
  obtain ⟨c, cs, hl⟩ : ∃ c cs, s.toList = c :: cs := by
    cases hcs : s.toList with
    | nil => exact absurd (toList_nil_eq_empty hcs) hne
    | cons c cs => exact ⟨c, cs, rfl⟩
  have hc : c ≠ '<' := by
    intro h
    rw [hl, h] at hlt
    simp at hlt
  have h1 : nameBeforeLt s =
      some (String.mk (s.toList.takeWhile (fun x => x != '<'))) := by
    unfold nameBeforeLt
    rw [hl]
    simp [hc, ← hl]
  have hstep : computeAuthorStep1 (some (.str s)) =
      some (claimedAuthorFromString s) := by
    simp only [computeAuthorStep1]
    rw [if_neg hne, h1]
    simp [claimedAuthorFromString]
  have h2 : strTruthy (some (claimedAuthorFromString s)) = true := by
    simpa [strTruthy] using htrim
  unfold computeAuthor
  rw [hstep, if_pos h2]

/-- Step (2) of the author chain: with no author field and a repository URL
whose cleaned form contains a GitHub owner, the owner is used. -/
theorem computeAuthor_github (u w : String)
    (hw : githubOwner (cleanRepoUrl u) = some w) :
    computeAuthor none (some u) = some w := by
  have hu : u ≠ "" := by
    intro h
    subst h
    rw [cleanRepoUrl_empty] at hw
    simp [githubOwner, githubSearch] at hw
  unfold computeAuthor computeAuthorStep1
  simp [strTruthy, hu, hw]

/-- Every failing downloads-fetch outcome makes `fetchPackageDownloads`
return `undefined`. -/
theorem fetchPackageDownloads_failure (dl : FetchResult Nat)
    (h : dlFailure dl) : fetchPackageDownloads dl = none := by
  cases dl with
  | rejected m => rfl
  | response r =>
    unfold dlFailure at h
    unfold fetchPackageDownloads fetchDownloadsCore
    dsimp only at h ⊢
    by_cases h4 : r.status = 404
    · rw [h4]
      rfl
    · rcases h with h | h
      · simp [h, h4]
      · by_cases hok : respOk r.status
        · simp [hok, h]
        · simp at hok
          simp [hok, h4]

/-- Whether `normalizeDoc` succeeds does not depend on the downloads value. -/
theorem normalizeDoc_isOk_dl (data : RegistryDocument) (dl dl' : Option Nat)
    (name : String) (v : Option String) :
    isOkB (normalizeDoc data dl name v) = isOkB (normalizeDoc data dl' name v) := by
  by_cases hl : strTruthy data.distTagsLatest = true
  · cases hrec : data.versions.lookup (targetVersion data v) with
    | none =>
      rw [normalizeDoc_versionNotFound data dl name v hl hrec,
        normalizeDoc_versionNotFound data dl' name v hl hrec]
    | some rec =>
      rw [normalizeDoc_eq_ok data dl name v rec hl hrec,
        normalizeDoc_eq_ok data dl' name v rec hl hrec]
      rfl
  · have hl' : strTruthy data.distTagsLatest = false := by simpa using hl
    rw [normalizeDoc_noLatest data dl name v hl',
      normalizeDoc_noLatest data dl' name v hl']

/-- The `downloadsLastWeek` field of a `normalizeDoc` result is exactly the
downloads value passed in (when the resolution succeeds at all). -/
theorem normalizeDoc_downloads (data : RegistryDocument) (dl : Option Nat)
    (name : String) (v : Option String) :
    resultDownloads (normalizeDoc data dl name v) = none ∨
    resultDownloads (normalizeDoc data dl name v) = some dl := by
  by_cases hl : strTruthy data.distTagsLatest = true
  · cases hrec : data.versions.lookup (targetVersion data v) with
    | none =>
      left
      rw [normalizeDoc_versionNotFound data dl name v hl hrec]
      rfl
    | some rec =>
      right
      rw [normalizeDoc_eq_ok data dl name v rec hl hrec]
      rfl
  · left
    have hl' : strTruthy data.distTagsLatest = false := by simpa using hl
    rw [normalizeDoc_noLatest data dl name v hl']
    rfl

/-! ### Concrete documents used by witnesses and counterexamples -/

def recBasic1 : VersionRecord := { name := "pkg", version := "1.0.0" }

def recBasic2 : VersionRecord := { name := "pkg", version := "2.0.0" }

def docBasic : RegistryDocument :=
  { distTagsLatest := some "1.0.0"
    versions := [("1.0.0", recBasic1), ("2.0.0", recBasic2)] }

def docNoLatest : RegistryDocument :=
  { versions := [("1.0.0", { name := "pkg", version := "1.0.0" })] }

def recMismatch : VersionRecord := { name := "pkg", version := "9.9.9" }

def recEmptyKey : VersionRecord := { name := "pkg", version := "" }

def docMismatch : RegistryDocument :=
  { distTagsLatest := some "1.0.0"
    versions := [("1.0.0", recMismatch), ("", recEmptyKey)] }

def recJane : VersionRecord :=
  { name := "pkg", version := "1.0.0"
    author := some (.str "Jane Doe <jane@example.com>") }

def docJane : RegistryDocument :=
  { distTagsLatest := some "1.0.0", versions := [("1.0.0", recJane)] }

def recAuthorLt : VersionRecord :=
  { name := "pkg", version := "1.0.0"
    author := some (.str "<jane@example.com>") }

def docAuthorLt : RegistryDocument :=
  { distTagsLatest := some "1.0.0", versions := [("1.0.0", recAuthorLt)] }

def recAuthorSpace : VersionRecord :=
  { name := "pkg", version := "1.0.0"
    author := some (.str " <jane@example.com>") }

def docAuthorSpace : RegistryDocument :=
  { distTagsLatest := some "1.0.0", versions := [("1.0.0", recAuthorSpace)] }

def repoAcme : RepoInfo :=
  { type := "git", url := "git+https://github.com/acme/widget.git" }

def recAcme : VersionRecord :=
  { name := "widget", version := "1.0.0", repository := some repoAcme }

def docAcme : RegistryDocument :=
  { distTagsLatest := some "1.0.0", versions := [("1.0.0", recAcme)] }

def dlFail404 : FetchResult Nat :=
  .response { status := 404, statusText := "Not Found", body := none }

/-! ### Claim C2 -/

/-- C2 counterexample: the `version` field of the result is the per-version
record's own `version` field, not the requested key, so a document whose
record disagrees with its key resolves to a different version string; and
requesting the key `""` (present in the map) falls back to the latest tag
instead of resolving to `""`. -/
theorem claim2_counterexample :
    docMismatch.versions.lookup "1.0.0" =
      some { name := "pkg", version := "9.9.9" } ∧
    resultVersion (normalizeDoc docMismatch none "pkg" (some "1.0.0")) =
      some "9.9.9" ∧
    resultVersion (normalizeDoc docMismatch none "pkg" (some "1.0.0")) ≠
      some "1.0.0" ∧
    docMismatch.versions.lookup "" = some { name := "pkg", version := "" } ∧
    resultVersion (normalizeDoc docMismatch none "pkg" (some "")) =
      some "9.9.9" := by
  decide

/-- C2 (amended): for every registry document with a truthy latest dist-tag
and every nonempty version key `v` of `doc.versions` whose record's own
`version` field equals `v`, resolving with requested version `v` succeeds
and the resulting package's `version` field equals `v`. -/
theorem claim2_resolves_requested (data : RegistryDocument) (dl : Option Nat)
    (name : String) (v : String) (rec : VersionRecord)
    (hl : strTruthy data.distTagsLatest = true)
    (hv : v ≠ "")
    (hrec : data.versions.lookup v = some rec)
    (hver : rec.version = v) :
    resultVersion (normalizeDoc data dl name (some v)) = some v := by
  have ht : targetVersion data (some v) = v := by
    simp [targetVersion, jsOrStr, hv]
  have hrec' : data.versions.lookup (targetVersion data (some v)) = some rec := by
    rw [ht]
    exact hrec
  rw [normalizeDoc_eq_ok data dl name (some v) rec hl hrec']
  simp [resultVersion, normalizedOk, hver]

/-- Witness for C2 (amended) at a concrete document. -/
theorem claim2_resolves_requested_witness :
    strTruthy docBasic.distTagsLatest = true ∧ ("2.0.0" : String) ≠ "" ∧
    docBasic.versions.lookup "2.0.0" = some recBasic2 ∧
    recBasic2.version = "2.0.0" ∧
    resultVersion (normalizeDoc docBasic none "pkg" (some "2.0.0")) =
      some "2.0.0" :=
  ⟨rfl, by decide, by decide, rfl,
   claim2_resolves_requested docBasic none "pkg" "2.0.0" recBasic2 rfl
     (by decide) (by decide) rfl⟩

/-! ### Claim C4 -/

/-- C4 counterexample: a document lacking the latest dist-tag fails with
`NoLatestTag` even when the caller-requested version is present in
`versions` - the tag check precedes the requested-version fallback. -/
theorem claim4_counterexample :
    (docNoLatest.versions.lookup "1.0.0").isSome = true ∧
    normalizeDoc docNoLatest none "pkg" (some "1.0.0") =
      .error (.noLatestTag "pkg") := by
  decide

/-- C4 (amended): the latest dist-tag is required unconditionally -
resolution fails with `NoLatestTag` exactly when the tag is falsy (absent
or empty), regardless of whether a requested version was given or is
present in the versions map. -/
theorem claim4_latest_required (data : RegistryDocument) (dl : Option Nat)
    (name : String) (v : Option String) :
    normalizeDoc data dl name v = .error (.noLatestTag name) ↔
      strTruthy data.distTagsLatest = false := by
  constructor
  · intro h
    by_cases hl : strTruthy data.distTagsLatest = true
    · exfalso
      cases hrec : data.versions.lookup (targetVersion data v) with
      | none =>
        rw [normalizeDoc_versionNotFound data dl name v hl hrec] at h
        simp at h
      | some rec =>
        rw [normalizeDoc_eq_ok data dl name v rec hl hrec] at h
        simp at h
    · simpa using hl
  · intro h
    exact normalizeDoc_noLatest data dl name v h

/-- Witness for C4 (amended) at a concrete document. -/
theorem claim4_latest_required_witness :
    normalizeDoc docNoLatest (some 3) "other" (some "1.0.0") =
      .error (.noLatestTag "other") :=
  (claim4_latest_required docNoLatest (some 3) "other" (some "1.0.0")).mpr
    (by decide)

/-! ### Claim C8 -/

/-- C8 counterexample: requesting the empty-string version (absent from the
map) succeeds by falling back to the latest tag instead of failing with
`VersionNotFound`; and on a document without a latest tag, a nonexistent
requested version fails with `NoLatestTag`, not `VersionNotFound`. -/
theorem claim8_counterexample :
    docBasic.versions.lookup "" = none ∧
    isOkB (normalizeDoc docBasic none "pkg" (some "")) = true ∧
    docNoLatest.versions.lookup "2.0.0" = none ∧
    normalizeDoc docNoLatest none "pkg" (some "2.0.0") =
      .error (.noLatestTag "pkg") := by
  decide

/-- C8 (amended): for every registry document with a truthy latest dist-tag
and every nonempty requested version `v` absent from `doc.versions`,
resolution fails with `VersionNotFound` carrying the offending version and
the package name, and no partial result is returned. -/
theorem claim8_version_not_found (data : RegistryDocument) (dl : Option Nat)
    (name : String) (v : String)
    (hl : strTruthy data.distTagsLatest = true)
    (hv : v ≠ "")
    (hrec : data.versions.lookup v = none) :
    normalizeDoc data dl name (some v) =
      .error (.versionNotFound v name) := by
  have ht : targetVersion data (some v) = v := by
    simp [targetVersion, jsOrStr, hv]
  have hrec' : data.versions.lookup (targetVersion data (some v)) = none := by
    rw [ht]
    exact hrec
  have h := normalizeDoc_versionNotFound data dl name (some v) hl hrec'
  rwa [ht] at h

/-- Witness for C8 (amended) at a concrete document. -/
theorem claim8_version_not_found_witness :
    strTruthy docBasic.distTagsLatest = true ∧ ("9.9.9" : String) ≠ "" ∧
    docBasic.versions.lookup "9.9.9" = none ∧
    normalizeDoc docBasic none "pkg" (some "9.9.9") =
      .error (.versionNotFound "9.9.9" "pkg") :=
  ⟨rfl, by decide, by decide,
   claim8_version_not_found docBasic none "pkg" "9.9.9" rfl (by decide)
     (by decide)⟩

/-! ### Claim C1 -/

/-- C1: for every registry document, the returned version list is exactly
the keys of `doc.versions` (a permutation), ordered descending by the
dotted-numeric comparator (split on `'.'`, positions compared as numbers
with non-numeric and missing positions as `0`), with tie classes keeping
their original order; and on the version set
`{"1.2.0","1.10.0","2.0.0","1.2.10"}` the result is
`["2.0.0","1.10.0","1.2.10","1.2.0"]`. -/
theorem claim1_version_ordering :
    (∀ (data : RegistryDocument) (dl : Option Nat) (name : String)
        (v : Option String) (vs : List String),
        resultVersions (normalizeDoc data dl name v) = some vs →
        vs.Perm (data.versions.map Prod.fst) ∧
        List.Sorted rV vs ∧
        ∀ k, vs.filter (fun x => tieB x k) =
          (data.versions.map Prod.fst).filter (fun x => tieB x k)) ∧
    sortVersions ["1.2.0", "1.10.0", "2.0.0", "1.2.10"] =
      ["2.0.0", "1.10.0", "1.2.10", "1.2.0"] := by
  constructor
  · intro data dl name v vs h
    have hvs : vs = sortVersions (data.versions.map Prod.fst) := by
      by_cases hl : strTruthy data.distTagsLatest = true
      · cases hrec : data.versions.lookup (targetVersion data v) with
        | none =>
          rw [normalizeDoc_versionNotFound data dl name v hl hrec] at h
          simp [resultVersions] at h
        | some rec =>
          rw [normalizeDoc_eq_ok data dl name v rec hl hrec] at h
          simp only [resultVersions, normalizedOk, Option.some.injEq] at h
          exact h.symm
      · have hl' : strTruthy data.distTagsLatest = false := by simpa using hl
        rw [normalizeDoc_noLatest data dl name v hl'] at h
        simp [resultVersions] at h
    subst hvs
    exact ⟨List.perm_insertionSort rV _, List.sorted_insertionSort rV _,
      fun k => filter_tie_sortVersions k _⟩
  · decide

/-- Witness for C1 at a concrete document. -/
theorem claim1_version_ordering_witness :
    resultVersions (normalizeDoc docBasic none "pkg" none) =
      some ["2.0.0", "1.0.0"] ∧
    List.Perm ["2.0.0", "1.0.0"] (docBasic.versions.map Prod.fst) ∧
    List.Sorted rV ["2.0.0", "1.0.0"] ∧
    List.filter (fun x => tieB x "1.0.0") ["2.0.0", "1.0.0"] =
      (docBasic.versions.map Prod.fst).filter (fun x => tieB x "1.0.0") :=
  ⟨by decide,
   (claim1_version_ordering.1 docBasic none "pkg" none ["2.0.0", "1.0.0"]
      (by decide)).1,
   (claim1_version_ordering.1 docBasic none "pkg" none ["2.0.0", "1.0.0"]
      (by decide)).2.1,
   (claim1_version_ordering.1 docBasic none "pkg" none ["2.0.0", "1.0.0"]
      (by decide)).2.2 "1.0.0"⟩

/-! ### Claim C3 -/

/-- C3 counterexample: for an author string beginning with `'<'` the regex
`/^([^<]+)/` does not match and the source keeps the whole string, not the
(empty) trimmed portion before the first `'<'`; and for an author string
whose portion before `'<'` is whitespace-only, the trimmed capture is
falsy, so the chain falls through to the sentinel instead. -/
theorem claim3_counterexample :
    resultAuthor (normalizeDoc docAuthorLt none "pkg" none) =
      some "<jane@example.com>" ∧
    claimedAuthorFromString "<jane@example.com>" = "" ∧
    resultAuthor (normalizeDoc docAuthorLt none "pkg" none) ≠
      some (claimedAuthorFromString "<jane@example.com>") ∧
    resultAuthor (normalizeDoc docAuthorSpace none "pkg" none) = some "N/A" ∧
    claimedAuthorFromString " <jane@example.com>" = "" := by
  decide

/-- C3 (amended): for every per-version author given as a nonempty free-text
string that does not begin with `'<'` and whose portion before the first
`'<'` does not trim to the empty string, the resolved author equals that
portion with surrounding whitespace trimmed. -/
theorem claim3_author_string (data : RegistryDocument) (dl : Option Nat)
    (name : String) (v : Option String) (rec : VersionRecord) (s : String)
    (hl : strTruthy data.distTagsLatest = true)
    (hrec : data.versions.lookup (targetVersion data v) = some rec)
    (hs : rec.author = some (.str s))
    (hne : s ≠ "")
    (hlt : s.toList.head? ≠ some '<')
    (htrim : claimedAuthorFromString s ≠ "") :
    resultAuthor (normalizeDoc data dl name v) =
      some (claimedAuthorFromString s) := by
  rw [normalizeDoc_eq_ok data dl name v rec hl hrec]
  show some (jsOrStr (computeAuthor rec.author (repoUrlOf data rec)) "N/A") = _
  rw [hs, computeAuthor_str s _ hne hlt htrim, jsOrStr_truthy "N/A" htrim]

/-- Witness for C3 (amended) at the spec's example string, checking also the
concrete value "Jane Doe". -/
theorem claim3_author_string_witness :
    strTruthy docJane.distTagsLatest = true ∧
    docJane.versions.lookup (targetVersion docJane none) = some recJane ∧
    recJane.author = some (.str "Jane Doe <jane@example.com>") ∧
    ("Jane Doe <jane@example.com>" : String) ≠ "" ∧
    ("Jane Doe <jane@example.com>" : String).toList.head? ≠ some '<' ∧
    claimedAuthorFromString "Jane Doe <jane@example.com>" ≠ "" ∧
    resultAuthor (normalizeDoc docJane none "pkg" none) =
      some (claimedAuthorFromString "Jane Doe <jane@example.com>") ∧
    claimedAuthorFromString "Jane Doe <jane@example.com>" = "Jane Doe" :=
  ⟨rfl, by decide, rfl, by decide, by decide, by decide,
   claim3_author_string docJane none "pkg" none recJane
     "Jane Doe <jane@example.com>" rfl (by decide) rfl (by decide) (by decide)
     (by decide),
   by decide⟩

/-! ### Claim C5 -/

/-- C5: for every per-version record with no author field whose repository
URL (per-version, else root-level), after stripping a leading `"git+"` and
a trailing `".git"`, matches `github.com/<owner>/<repo>`, the resolved
author equals `<owner>`. -/
theorem claim5_github_author (data : RegistryDocument) (dl : Option Nat)
    (name : String) (v : Option String) (rec : VersionRecord) (u w : String)
    (hl : strTruthy data.distTagsLatest = true)
    (hrec : data.versions.lookup (targetVersion data v) = some rec)
    (hauth : rec.author = none)
    (hurl : repoUrlOf data rec = some u)
    (hw : githubOwner (cleanRepoUrl u) = some w) :
    resultAuthor (normalizeDoc data dl name v) = some w := by
  rw [normalizeDoc_eq_ok data dl name v rec hl hrec]
  show some (jsOrStr (computeAuthor rec.author (repoUrlOf data rec)) "N/A") =
    some w
  rw [hauth, hurl, computeAuthor_github u w hw,
    jsOrStr_truthy "N/A" (githubOwner_ne_empty hw)]

/-- Witness for C5 at the spec's example URL, yielding author "acme". -/
theorem claim5_github_author_witness :
    strTruthy docAcme.distTagsLatest = true ∧
    docAcme.versions.lookup (targetVersion docAcme none) = some recAcme ∧
    recAcme.author = none ∧
    repoUrlOf docAcme recAcme =
      some "git+https://github.com/acme/widget.git" ∧
    githubOwner (cleanRepoUrl "git+https://github.com/acme/widget.git") =
      some "acme" ∧
    resultAuthor (normalizeDoc docAcme none "widget" none) = some "acme" :=
  ⟨rfl, by decide, rfl, by decide, by decide,
   claim5_github_author docAcme none "widget" none recAcme
     "git+https://github.com/acme/widget.git" "acme" rfl (by decide) rfl
     (by decide) (by decide)⟩

/-! ### Claim C6 -/

/-- C6: whenever resolution succeeds the author field is a non-empty string,
and when the whole author chain produces nothing (or an empty string) it is
the sentinel "N/A". -/
theorem claim6_author_nonempty (data : RegistryDocument) (dl : Option Nat)
    (name : String) (v : Option String) (res : PackageDetailsResponse)
    (h : normalizeDoc data dl name v = .ok res) :
    res.packageData.author ≠ "" ∧
    (∀ rec, data.versions.lookup (targetVersion data v) = some rec →
      strTruthy (computeAuthor rec.author (repoUrlOf data rec)) = false →
      res.packageData.author = "N/A") := by
  by_cases hl : strTruthy data.distTagsLatest = true
  · cases hrec : data.versions.lookup (targetVersion data v) with
    | none =>
      rw [normalizeDoc_versionNotFound data dl name v hl hrec] at h
      exact absurd h (by simp)
    | some rec =>
      rw [normalizeDoc_eq_ok data dl name v rec hl hrec] at h
      injection h with h2
      subst h2
      constructor
      · show jsOrStr (computeAuthor rec.author (repoUrlOf data rec)) "N/A" ≠ ""
        exact jsOrStr_NA_ne_empty _
      · intro rec' hrec' hfalse
        injection hrec' with h3
        subst h3
        show jsOrStr (computeAuthor rec.author (repoUrlOf data rec)) "N/A" =
          "N/A"
        exact jsOrStr_falsy _ hfalse
  · have hl' : strTruthy data.distTagsLatest = false := by simpa using hl
    rw [normalizeDoc_noLatest data dl name v hl'] at h
    exact absurd h (by simp)

/-- Witness for C6 at a concrete document with no author information. -/
theorem claim6_author_nonempty_witness :
    normalizeDoc docBasic none "pkg" none =
      .ok (normalizedOk docBasic none "pkg" "1.0.0" recBasic1) ∧
    (normalizedOk docBasic none "pkg" "1.0.0" recBasic1).packageData.author ≠
      "" ∧
    (normalizedOk docBasic none "pkg" "1.0.0" recBasic1).packageData.author =
      "N/A" :=
  ⟨by decide,
   (claim6_author_nonempty docBasic none "pkg" none
      (normalizedOk docBasic none "pkg" "1.0.0" recBasic1) (by decide)).1,
   (claim6_author_nonempty docBasic none "pkg" none
      (normalizedOk docBasic none "pkg" "1.0.0" recBasic1) (by decide)).2
     recBasic1 (by decide) (by decide)⟩

/-! ### Claim C7 -/

/-- C7: no outcome of the weekly-downloads fetch (404, other non-success,
transport failure, malformed body) affects whether the overall resolution
succeeds, and under any such failing outcome a successful resolution
carries no `downloadsLastWeek` value. -/
theorem claim7_downloads_never_fail (docFetch : FetchResult RegistryDocument)
    (name : String) (v : Option String) :
    (∀ dl dl', isOkB (fetchPackageData docFetch dl name v) =
      isOkB (fetchPackageData docFetch dl' name v)) ∧
    (∀ dl, dlFailure dl →
      resultDownloads (fetchPackageData docFetch dl name v) = none ∨
      resultDownloads (fetchPackageData docFetch dl name v) = some none) := by
  constructor
  · intro dl dl'
    cases docFetch with
    | rejected m => rfl
    | response r =>
      unfold fetchPackageData
      dsimp only
      by_cases hok : respOk r.status = true
      · simp only [hok, Bool.not_true, Bool.false_eq_true, if_false]
        cases hb : r.body with
        | none => rfl
        | some data => exact normalizeDoc_isOk_dl data _ _ name v
      · have hok' : respOk r.status = false := by simpa using hok
        simp only [hok', Bool.not_false, if_true]
  · intro dl hfail
    have hdl := fetchPackageDownloads_failure dl hfail
    cases docFetch with
    | rejected m =>
      left
      rfl
    | response r =>
      unfold fetchPackageData
      dsimp only
      by_cases hok : respOk r.status = true
      · simp only [hok, Bool.not_true, Bool.false_eq_true, if_false]
        cases hb : r.body with
        | none =>
          left
          rfl
        | some data =>
          rw [hdl]
          exact normalizeDoc_downloads data none name v
      · have hok' : respOk r.status = false := by simpa using hok
        simp only [hok', Bool.not_false, if_true]
        by_cases h4 : r.status = 404 <;> simp [h4, resultDownloads]
  
/-- Witness for C7 at a concrete document and a 404 downloads response. -/
theorem claim7_downloads_never_fail_witness :
    dlFailure dlFail404 ∧
    isOkB (fetchPackageData (fetchOkDoc docBasic) dlFail404 "pkg" none) =
      isOkB (fetchPackageData (fetchOkDoc docBasic)
        (.response { status := 200, statusText := "OK", body := some 42 })
        "pkg" none) ∧
    (resultDownloads
        (fetchPackageData (fetchOkDoc docBasic) dlFail404 "pkg" none) =
      none ∨
     resultDownloads
        (fetchPackageData (fetchOkDoc docBasic) dlFail404 "pkg" none) =
      some none) :=
  ⟨Or.inl (by decide),
   (claim7_downloads_never_fail (fetchOkDoc docBasic) "pkg" none).1 dlFail404
     (.response { status := 200, statusText := "OK", body := some 42 }),
   (claim7_downloads_never_fail (fetchOkDoc docBasic) "pkg" none).2 dlFail404
     (Or.inl (by decide))⟩

/-! ### Claim C9 -/

/-- C9: a non-success document-fetch response fails the resolution with
`notFound` (naming the package) exactly when the status is 404, and with
`transportError` carrying the response's status text otherwise. -/
theorem claim9_doc_fetch_errors (name : String) (v : Option String)
    (dl : FetchResult Nat) (st : Nat) (stText : String)
    (body : Option RegistryDocument)
    (h : respOk st = false) :
    fetchPackageData
        (.response { status := st, statusText := stText, body := body })
        dl name v =
      if st = 404 then Except.error (NpmError.notFound name)
      else Except.error (NpmError.transportError stText) := by
  unfold fetchPackageData
  dsimp only
  simp only [h, Bool.not_false, if_true]

def resp500 : HttpResponse RegistryDocument :=
  { status := 500, statusText := "Internal Server Error", body := none }

def resp404 : HttpResponse RegistryDocument :=
  { status := 404, statusText := "Not Found", body := none }

/-- Witness for C9 at a 500 and at a 404 document response. -/
theorem claim9_doc_fetch_errors_witness :
    respOk 500 = false ∧ respOk 404 = false ∧
    fetchPackageData (.response resp500) (.rejected "boom") "pkg" none =
      (if (500 : Nat) = 404 then Except.error (NpmError.notFound "pkg")
       else Except.error (NpmError.transportError "Internal Server Error")) ∧
    fetchPackageData (.response resp404) (.rejected "boom") "pkg" none =
      (if (404 : Nat) = 404 then Except.error (NpmError.notFound "pkg")
       else Except.error (NpmError.transportError "Not Found")) :=
  ⟨by decide, by decide,
   claim9_doc_fetch_errors "pkg" none (.rejected "boom") 500
     "Internal Server Error" none (by decide),
   claim9_doc_fetch_errors "pkg" none (.rejected "boom") 404 "Not Found" none
     (by decide)⟩

/-! ### Claim C10 -/

/-- C10: requesting the empty-string version behaves exactly like requesting
no version at all (the empty string is falsy in `version ||
latestVersion`), and with a truthy latest tag the resolution never fails
with `VersionNotFound` for the empty string. -/
theorem claim10_empty_version :
    (∀ (docFetch : FetchResult RegistryDocument) (dl : FetchResult Nat)
        (name : String),
        fetchPackageData docFetch dl name (some "") =
          fetchPackageData docFetch dl name none) ∧
    (∀ (data : RegistryDocument) (dl : Option Nat) (name l : String),
        data.distTagsLatest = some l → l ≠ "" →
        normalizeDoc data dl name (some "") ≠
          .error (.versionNotFound "" name)) := by
  constructor
  · intro docFetch dl name
    rfl
  · intro data dl name l hl hne hcontra
    have hlat : strTruthy data.distTagsLatest = true := by
      rw [hl]
      simp [strTruthy, hne]
    cases hrec : data.versions.lookup (targetVersion data (some "")) with
    | none =>
      rw [normalizeDoc_versionNotFound data dl name (some "") hlat hrec]
        at hcontra
      have ht : targetVersion data (some "") = l := by
        simp [targetVersion, jsOrStr, hl]
      rw [ht] at hcontra
      have : l = "" := by simpa using hcontra
      exact hne this
    | some rec =>
      rw [normalizeDoc_eq_ok data dl name (some "") rec hlat hrec] at hcontra
      simp at hcontra

/-- Witness for C10 at a concrete document. -/
theorem claim10_empty_version_witness :
    fetchPackageData (fetchOkDoc docBasic) (.rejected "x") "pkg" (some "") =
      fetchPackageData (fetchOkDoc docBasic) (.rejected "x") "pkg" none ∧
    docBasic.distTagsLatest = some "1.0.0" ∧ ("1.0.0" : String) ≠ "" ∧
    normalizeDoc docBasic none "pkg" (some "") ≠
      .error (.versionNotFound "" "pkg") :=
  ⟨claim10_empty_version.1 (fetchOkDoc docBasic) (.rejected "x") "pkg",
   rfl, by decide,
   claim10_empty_version.2 docBasic none "pkg" "1.0.0" rfl (by decide)⟩
